import Mathlib

/-!
Verification of the lowRISC flash controller driver
(`chips/lowrisc/src/flash_ctrl.rs`) and the flash HIL
(`kernel/src/hil/flash.rs`).

The driver is embedded as a pure state machine: the driver-private cells
(`Cell`/`TakeCell` fields of `FlashCtrl`) and the hardware registers the
driver later reads back become a `St` record; every register write is also
recorded, in program order, in a list of `Event`s, together with the client
callbacks (`read_complete` / `write_complete` / `erase_complete`).
Hardware-controlled inputs (interrupt-state bits, read-FIFO contents,
`PROG_FULL` status, `CTRL_REGWEN`) are explicit parameters.  Machine
integers are `Nat` with explicit `% 2^32` where the Rust `u32` arithmetic
can wrap.
-/

namespace FlashCtrl

/-- `PAGE_SIZE` from the source. -/
def PAGE_SIZE : Nat := 2048
/-- `FLASH_WORD_SIZE` from the source. -/
def FLASH_WORD_SIZE : Nat := 8
/-- `FLASH_PAGES_PER_BANK` from the source. -/
def FLASH_PAGES_PER_BANK : Nat := 256
/-- `FLASH_PROG_WINDOW_SIZE` from the source (in 32-bit words). -/
def FLASH_PROG_WINDOW_SIZE : Nat := 16
/-- `FLASH_PROG_WINDOW_MASK` from the source. -/
def FLASH_PROG_WINDOW_MASK : Nat := 0xFFFFFFF0

/-- The `u32` modulus. -/
def U32 : Nat := 4294967296

/-- Wrapping `u32` subtraction (release-mode Rust semantics). -/
def sub32 (a b : Nat) : Nat := (a + U32 - b) % U32

/-- Extract the register bitfield of `width` bits at bit offset `off`. -/
def getField (v off width : Nat) : Nat := v / 2 ^ off % 2 ^ width

/-- Replace the register bitfield of `width` bits at bit offset `off`
by `x` (the semantics of a tock-registers `modify` of one field). -/
def setField (v off width x : Nat) : Nat :=
  v - getField v off width * 2 ^ off + x * 2 ^ off

/-- A page buffer: an allocation identity (modelling the address of the
`&'static mut LowRiscPage`) together with its byte contents. -/
structure Page where
  pid : Nat
  bytes : Nat → Nat

/-- Store one byte into a page buffer. -/
def Page.upd (p : Page) (i v : Nat) : Page :=
  ⟨p.pid, fun j => if j = i then v else p.bytes j⟩

/-- `hil::flash::Error`, the error delivered in completion callbacks. -/
inductive Ferr
  | commandComplete
  | flashError
  | flashMPError
deriving DecidableEq, Repr

/-- `kernel::ErrorCode` (the variants this driver and the HIL use). -/
inductive ErrorCode
  | BUSY
  | INVAL
  | NOSUPPORT
deriving DecidableEq, Repr

/-- Names of the hardware registers the driver writes. -/
inductive RegName
  | intrEnable
  | intrState
  | fifoLvl
  | control
  | addrReg
  | opStatus
  | defaultRegion
  | mpRegionCfg (i : Nat)
  | mpRegion (i : Nat)
  | bank0Info0PageCfg (i : Nat)
  | bank1Info0PageCfg (i : Nat)
  | mpBankCfgShadowed
  | progFifo
deriving DecidableEq, Repr

/-- Observable actions of the driver: register writes (in program order)
and client callbacks. -/
inductive Event
  | regWrite (r : RegName) (v : Nat)
  | readComplete (b : Page) (e : Ferr)
  | writeComplete (b : Page) (e : Ferr)
  | eraseComplete (e : Ferr)

/-- The hardware registers whose current value the driver reads back
(via `modify` or `matches_all`), so their contents must be tracked. -/
structure Regs where
  control : Nat
  mpBankCfg : Nat
  fifoLvl : Nat
  intrEnable : Nat
  mpRegionCfgA : Nat → Nat
  bank0Info0A : Nat → Nat
  bank1Info0A : Nat → Nat

/-- The driver state: the `Cell`/`TakeCell` fields of `FlashCtrl` plus the
tracked registers. -/
structure St where
  dataConfigured : Bool
  infoConfigured : Bool
  readBuf : Option Page
  readIndex : Nat
  writeBuf : Option Page
  writeIndex : Nat
  writeWordAddr : Nat
  regionNum : Nat
  regs : Regs

/-- `FlashCtrl::new`: all flags false, no buffers held, indices zero;
hardware registers at their reset values. -/
def initSt (regionNum : Nat) : St :=
  { dataConfigured := false
    infoConfigured := false
    readBuf := none
    readIndex := 0
    writeBuf := none
    writeIndex := 0
    writeWordAddr := 0
    regionNum := regionNum
    regs :=
      { control := 0
        mpBankCfg := 0
        fifoLvl := 0
        intrEnable := 0
        mpRegionCfgA := fun _ => 0
        bank0Info0A := fun _ => 0
        bank1Info0A := fun _ => 0 } }

/-- `FlashCtrl::calculate_max_prog_len`, on `u32` values embedded as `Nat`
(`word_addr`, `rem_bytes < 2^32`); the `+` wraps and the `-` is the
release-mode wrapping subtraction. -/
def calculate_max_prog_len (word_addr rem_bytes : Nat) : Nat :=
  let window_limit :=
    sub32 (Nat.land ((word_addr + FLASH_PROG_WINDOW_SIZE) % U32) FLASH_PROG_WINDOW_MASK)
      word_addr
  let words_to_write := rem_bytes / 4
  if words_to_write < window_limit then words_to_write else window_limit

/-- `FlashBank` from the source. -/
inductive FlashBank
  | BANK0
  | BANK1
deriving DecidableEq

/-- Interrupt-state bits read at the top of `handle_interrupt`
(hardware-controlled input). -/
structure Irqs where
  opError : Bool
  rdLvl : Bool
  progEmpty : Bool
  opDone : Bool

/-- Hardware-controlled read-only inputs: the `CTRL_REGWEN` bit, the words
the read FIFO yields before `STATUS::RD_EMPTY` goes high, and the
per-iteration `STATUS::PROG_FULL` bit of the program-FIFO fill loop. -/
structure HwIn where
  ctrlRegwen : Bool
  rdFifo : List Nat
  progFull : Nat → Bool

/-- `FlashCtrl::enable_interrupts`: `PROG_EMPTY + RD_LVL + OP_DONE +
OP_ERROR` = bits 0,3,4,5 = 57. -/
def enable_interrupts (s : St) : St × List Event :=
  ({ s with regs := { s.regs with intrEnable := 57 } },
   [.regWrite .intrEnable 57])

/-- `FlashCtrl::disable_interrupts`: clear the enable mask, acknowledge all
pending interrupt-state bits. -/
def disable_interrupts (s : St) : St × List Event :=
  ({ s with regs := { s.regs with intrEnable := 0 } },
   [.regWrite .intrEnable 0, .regWrite .intrState 0xFFFFFFFF])

/-- `FlashCtrl::configure_data_partition`. -/
def configure_data_partition (s : St) (num : Nat) : St × List Event :=
  let v1 : Nat := 0x996669
  let v2 : Nat := setField v1 0 4 6
  ({ s with
      dataConfigured := true
      regs := { s.regs with
        mpRegionCfgA := fun i => if i = num then v2 else s.regs.mpRegionCfgA i } },
   [.regWrite .defaultRegion 0x666,
    .regWrite (.mpRegionCfg num) v1,
    .regWrite (.mpRegion num) (FLASH_PAGES_PER_BANK + 1 * 512),
    .regWrite (.mpRegionCfg num) v2])

/-- `FlashCtrl::configure_info_partition`. -/
def configure_info_partition (s : St) (bank : FlashBank) (num : Nat) :
    St × List Event :=
  let v1 : Nat := 0x666669
  let v2 : Nat := setField v1 0 4 6
  match bank with
  | .BANK0 =>
    ({ s with
        infoConfigured := true
        regs := { s.regs with
          bank0Info0A := fun i => if i = num then v2 else s.regs.bank0Info0A i } },
     [.regWrite (.bank0Info0PageCfg num) v1,
      .regWrite (.bank0Info0PageCfg num) v2])
  | .BANK1 =>
    ({ s with
        infoConfigured := true
        regs := { s.regs with
          bank1Info0A := fun i => if i = num then v2 else s.regs.bank1Info0A i } },
     [.regWrite (.bank1Info0PageCfg num) v1,
      .regWrite (.bank1Info0PageCfg num) v2])

/-- Result of the read-FIFO drain loop. -/
structure DrainRes where
  buf : Page
  readIndex : Nat
  offsets : List Nat

/-- The `RD_LVL` drain loop of `handle_interrupt`: while the FIFO is not
empty and `read_index < PAGE_SIZE`, pop one word and store its four
little-endian bytes at `read_index`.  `offsets` records the base offset of
every four-byte store performed. -/
def drainLoop (buf : Page) (idx : Nat) : List Nat → DrainRes
  | [] => ⟨buf, idx, []⟩
  | d :: rest =>
    if idx < PAGE_SIZE then
      let b := buf.upd idx (d % 256)
      let b := b.upd (idx + 1) (d / 256 % 256)
      let b := b.upd (idx + 2) (d / 65536 % 256)
      let b := b.upd (idx + 3) (d / 16777216 % 256)
      let r := drainLoop b (idx + 4) rest
      ⟨r.buf, r.readIndex, idx :: r.offsets⟩
    else ⟨buf, idx, []⟩

/-- The 32-bit word assembled from four consecutive buffer bytes in the
program-FIFO fill loop. -/
def word_at (buf : Page) (off : Nat) : Nat :=
  buf.bytes off % 256 + buf.bytes (off + 1) % 256 * 256 +
    buf.bytes (off + 2) % 256 * 65536 + buf.bytes (off + 3) % 256 * 16777216

/-- Result of the program-FIFO fill loop. -/
structure FillRes where
  wordsWritten : Nat
  writeIndex : Nat
  events : List Event
  offsets : List Nat

/-- The `for i in 0..transaction_word_len` fill loop shared by `write_page`
and the `PROG_EMPTY` branch: on `PROG_FULL` break with `words_written = i`;
otherwise push the word at `write_index` and advance by four.  Iterates
over `List.range len` with the `words_written` accumulator `ww`. -/
def fillLoop (pf : Nat → Bool) (buf : Page) : List Nat → Nat → Nat → FillRes
  | [], ww, widx => ⟨ww, widx, [], []⟩
  | i :: rest, _ww, widx =>
    if pf i then ⟨i, widx, [], []⟩
    else
      let d := word_at buf widx
      let r := fillLoop pf buf rest (i + 1) (widx + 4)
      ⟨r.wordsWritten, r.writeIndex, .regWrite .progFifo d :: r.events,
        widx :: r.offsets⟩

/-- The `INTR::OP_ERROR` block of `handle_interrupt`: clear `op_status`,
take whichever buffers are held and deliver them with `FlashError`. -/
def opErrorStep (s : St) (fire : Bool) : St × List Event :=
  if fire then
    let evR :=
      match s.readBuf with
      | some b => [Event.readComplete b .flashError]
      | none => []
    let evW :=
      match s.writeBuf with
      | some b => [Event.writeComplete b .flashError]
      | none => []
    ({ s with readBuf := none, writeBuf := none },
     Event.regWrite .opStatus 0 :: evR ++ evW)
  else (s, [])

/-- The `INTR::RD_LVL` block of `handle_interrupt`: if a read buffer is
held, drain the read FIFO into it and re-arm the interrupts. -/
def rdLvlStep (s : St) (fire : Bool) (rdFifo : List Nat) : St × List Event :=
  if fire then
    match s.readBuf with
    | some b =>
      let r := drainLoop b s.readIndex rdFifo
      let s := { s with readBuf := some r.buf, readIndex := r.readIndex }
      enable_interrupts s
    | none => (s, [])
  else (s, [])

/-- The `INTR::PROG_EMPTY` block of `handle_interrupt`: if a write buffer
is held, issue the next window-limited program run, refill the program
FIFO, advance the cursors and re-arm the interrupts. -/
def progEmptyStep (s : St) (fire : Bool) (progFull : Nat → Bool) :
    St × List Event :=
  if fire then
    match s.writeBuf with
    | some b =>
      let len :=
        calculate_max_prog_len (s.writeWordAddr % U32)
          ((PAGE_SIZE - s.writeIndex) % U32)
      let ctl := 1 * 16 + sub32 len 1 % 4096 * 65536
      let ctl2 := setField ctl 0 1 1
      let fill := fillLoop progFull b (List.range len) 0 s.writeIndex
      let s' := { s with
        writeIndex := fill.writeIndex
        writeWordAddr := s.writeWordAddr + fill.wordsWritten
        regs := { s.regs with control := ctl2 } }
      let e := enable_interrupts s'
      (e.1,
       Event.regWrite .control ctl ::
         Event.regWrite .addrReg (s.writeWordAddr % U32 * 4 % U32) ::
           Event.regWrite .control ctl2 :: (fill.events ++ e.2))
    | none => (s, [])
  else (s, [])

/-- The `INTR::OP_DONE` block of `handle_interrupt`: dispatch on the `OP`
field of the control register; deliver `CommandComplete` when the whole
page has been transferred, re-arm otherwise. -/
def opDoneStep (s : St) (fire : Bool) : St × List Event :=
  if fire then
    if getField s.regs.control 4 2 = 0 then
      match s.readBuf with
      | some b =>
        if PAGE_SIZE ≤ s.readIndex then
          ({ s with readBuf := none },
           [Event.regWrite .opStatus 0, Event.readComplete b .commandComplete])
        else enable_interrupts { s with readBuf := some b }
      | none => (s, [])
    else if getField s.regs.control 4 2 = 1 then
      match s.writeBuf with
      | some b =>
        if PAGE_SIZE ≤ s.writeIndex then
          ({ s with writeBuf := none },
           [Event.regWrite .opStatus 0, Event.writeComplete b .commandComplete])
        else enable_interrupts { s with writeBuf := some b }
      | none => (s, [])
    else if getField s.regs.control 4 2 = 2 then
      (s, [Event.eraseComplete .commandComplete])
    else (s, [])
  else (s, [])

/-- `FlashCtrl::handle_interrupt`: disable interrupts, then run the four
interrupt blocks in program order. -/
def handle_interrupt (s : St) (irqs : Irqs) (hw : HwIn) : St × List Event :=
  let r0 := disable_interrupts s
  let r1 := opErrorStep r0.1 irqs.opError
  let r2 := rdLvlStep r1.1 irqs.rdLvl hw.rdFifo
  let r3 := progEmptyStep r2.1 irqs.progEmpty hw.progFull
  let r4 := opDoneStep r3.1 irqs.opDone
  (r4.1, r0.2 ++ r1.2 ++ r2.2 ++ r3.2 ++ r4.2)

/-- `hil::flash::Flash::read_page` for `FlashCtrl`. -/
def read_page (s : St) (page_number : Nat) (buf : Page) (hw : HwIn) :
    St × List Event × Option (ErrorCode × Page) :=
  let addr := page_number * PAGE_SIZE
  let r1 :=
    if ¬ s.infoConfigured then configure_info_partition s .BANK1 s.regionNum
    else (s, [])
  let s := r1.1
  let r2 :=
    if ¬ s.dataConfigured then configure_data_partition s s.regionNum
    else (s, [])
  let s := r2.1
  let r3 := enable_interrupts s
  let s := r3.1
  let fl := setField s.regs.fifoLvl 8 5 0xF
  let s := { s with regs := { s.regs with fifoLvl := fl } }
  let evPre := r1.2 ++ r2.2 ++ r3.2 ++ [Event.regWrite .fifoLvl fl]
  if ¬ hw.ctrlRegwen then
    (s, evPre, some (.BUSY, buf))
  else
    let ctl := 0 * 16 + 3 * 512 + (PAGE_SIZE / 4 - 1) % 4096 * 65536
    let ctl2 := setField ctl 0 1 1
    let s := { s with
      readBuf := some buf
      readIndex := 0
      regs := { s.regs with control := ctl2 } }
    (s,
     evPre ++
       [Event.regWrite .control ctl, Event.regWrite .addrReg (addr % U32),
        Event.regWrite .control ctl2],
     none)

/-- `hil::flash::Flash::write_page` for `FlashCtrl`. -/
def write_page (s : St) (page_number : Nat) (buf : Page) (hw : HwIn) :
    St × List Event × Option (ErrorCode × Page) :=
  let addr := page_number * PAGE_SIZE
  let r1 :=
    if ¬ s.infoConfigured then configure_info_partition s .BANK1 s.regionNum
    else (s, [])
  let s := r1.1
  let r2 :=
    if ¬ s.dataConfigured then configure_data_partition s s.regionNum
    else (s, [])
  let s := r2.1
  let evPre := r1.2 ++ r2.2
  if ¬ hw.ctrlRegwen then
    (s, evPre, some (.BUSY, buf))
  else
    let word_address := addr / 4
    let len := calculate_max_prog_len (word_address % U32) (PAGE_SIZE % U32)
    let ctl := 1 * 16 + sub32 len 1 % 4096 * 65536
    let ctl2 := setField ctl 0 1 1
    let fill := fillLoop hw.progFull buf (List.range len) 0 0
    let s := { s with
      writeIndex := fill.writeIndex
      writeWordAddr := addr / 4 + fill.wordsWritten
      writeBuf := some buf
      regs := { s.regs with control := ctl2 } }
    let r3 := enable_interrupts s
    let s := r3.1
    let fl := setField s.regs.fifoLvl 0 5 0
    let s := { s with regs := { s.regs with fifoLvl := fl } }
    (s,
     evPre ++
       (Event.regWrite .control ctl ::
         Event.regWrite .addrReg (addr % U32) ::
           Event.regWrite .control ctl2 :: fill.events) ++
       r3.2 ++ [Event.regWrite .fifoLvl fl],
     none)

/-- `hil::flash::Flash::erase_page` for `FlashCtrl`. -/
def erase_page (s : St) (page_number : Nat) (_hw : HwIn) :
    St × List Event × Option ErrorCode :=
  let addr := page_number * PAGE_SIZE
  let r1 :=
    if ¬ s.dataConfigured then configure_data_partition s s.regionNum
    else (s, [])
  let s := r1.1
  let r2 :=
    if ¬ s.infoConfigured then configure_info_partition s .BANK1 s.regionNum
    else (s, [])
  let s := r2.1
  let v1 := setField (setField s.regs.mpBankCfg 0 1 0) 1 1 0
  let s := { s with regs := { s.regs with mpBankCfg := v1 } }
  let v2 := setField (setField s.regs.mpBankCfg 0 1 0) 1 1 0
  let s := { s with regs := { s.regs with mpBankCfg := v2 } }
  let r3 := enable_interrupts s
  let s := r3.1
  let ctl : Nat := 2 * 16 + 0 * 128 + 0 * 256 + 1
  let s := { s with regs := { s.regs with control := ctl } }
  (s,
   r1.2 ++ r2.2 ++
     [Event.regWrite .mpBankCfgShadowed v1, Event.regWrite .mpBankCfgShadowed v2,
      Event.regWrite .addrReg (addr % U32)] ++
     r3.2 ++ [Event.regWrite .control ctl],
   none)

/-- One externally triggered driver action: an entry-point call or a
hardware interrupt. -/
inductive OpCall
  | readP (page : Nat) (buf : Page) (hw : HwIn)
  | writeP (page : Nat) (buf : Page) (hw : HwIn)
  | eraseP (page : Nat) (hw : HwIn)
  | irq (irqs : Irqs) (hw : HwIn)

/-- Run one action, keeping the state and the emitted events. -/
def runOp (s : St) : OpCall → St × List Event
  | .readP p b hw => let r := read_page s p b hw; (r.1, r.2.1)
  | .writeP p b hw => let r := write_page s p b hw; (r.1, r.2.1)
  | .eraseP p hw => let r := erase_page s p hw; (r.1, r.2.1)
  | .irq i hw => handle_interrupt s i hw

/-- Run one action, state only. -/
def runS (s : St) (c : OpCall) : St := (runOp s c).1

/-- Run a sequence of actions, collecting all events in order. -/
def runTrace (s : St) : List OpCall → St × List Event
  | [] => (s, [])
  | c :: cs =>
    let r := runOp s c
    let r2 := runTrace r.1 cs
    (r2.1, r.2 ++ r2.2)

/-- Run a sequence of actions, state only. -/
def runTraceS (s : St) (cs : List OpCall) : St := cs.foldl runS s

/-- Run a sequence of `handle_interrupt` invocations (the interrupt-driven
phase of one operation), collecting all events in order. -/
def runIrqs (s : St) : List (Irqs × HwIn) → St × List Event
  | [] => (s, [])
  | p :: rest =>
    let r := handle_interrupt s p.1 p.2
    let r2 := runIrqs r.1 rest
    (r2.1, r.2 ++ r2.2)

/-- The identity (allocation) of the held read buffer, if any. -/
def heldReadId (s : St) : Option Nat := s.readBuf.map Page.pid

/-- The identity (allocation) of the held write buffer, if any. -/
def heldWriteId (s : St) : Option Nat := s.writeBuf.map Page.pid

/-- The `read_complete` callbacks in an event list: buffer identity and
error delivered, in order. -/
def readCbs : List Event → List (Nat × Ferr)
  | [] => []
  | .readComplete b e :: r => (b.pid, e) :: readCbs r
  | _ :: r => readCbs r

/-- The `write_complete` callbacks in an event list. -/
def writeCbs : List Event → List (Nat × Ferr)
  | [] => []
  | .writeComplete b e :: r => (b.pid, e) :: writeCbs r
  | _ :: r => writeCbs r

/-- The `erase_complete` callbacks in an event list. -/
def eraseCbs : List Event → List Ferr
  | [] => []
  | .eraseComplete e :: r => e :: eraseCbs r
  | _ :: r => eraseCbs r

/-- Total number of client callbacks (of any kind) in an event list. -/
def numCallbacks : List Event → Nat
  | [] => 0
  | .readComplete _ _ :: r => 1 + numCallbacks r
  | .writeComplete _ _ :: r => 1 + numCallbacks r
  | .eraseComplete _ :: r => 1 + numCallbacks r
  | _ :: r => numCallbacks r

/-- The errors delivered by all callbacks in an event list. -/
def cbErrs : List Event → List Ferr
  | [] => []
  | .readComplete _ e :: r => e :: cbErrs r
  | .writeComplete _ e :: r => e :: cbErrs r
  | .eraseComplete e :: r => e :: cbErrs r
  | _ :: r => cbErrs r

/-- The `CONTROL::NUM` fields of all control-register writes in an event
list. -/
def controlNums : List Event → List Nat
  | [] => []
  | .regWrite .control v :: r => getField v 16 12 :: controlNums r
  | _ :: r => controlNums r

/-- Number of writes to the `default_region` register (performed exactly
once per `configure_data_partition` run). -/
def dataCfgWrites : List Event → Nat
  | [] => 0
  | .regWrite .defaultRegion _ :: r => 1 + dataCfgWrites r
  | _ :: r => dataCfgWrites r

/-- Number of writes to the per-bank info-page config registers (performed
exactly twice per `configure_info_partition` run). -/
def infoCfgWrites : List Event → Nat
  | [] => 0
  | .regWrite (.bank0Info0PageCfg _) _ :: r => 1 + infoCfgWrites r
  | .regWrite (.bank1Info0PageCfg _) _ :: r => 1 + infoCfgWrites r
  | _ :: r => infoCfgWrites r

/-- A hardware environment that accepts commands (`CTRL_REGWEN` set), with
an empty read FIFO and a never-full program FIFO. -/
def hwOk : HwIn := ⟨true, [], fun _ => false⟩

/-- A hardware environment reporting the control register not writable. -/
def hwBusy : HwIn := ⟨false, [], fun _ => false⟩

/-- A full page read: the FIFO yields all 512 words. -/
def hwFifoFull : HwIn := ⟨true, List.replicate 512 305419896, fun _ => false⟩

/-- Only `OP_ERROR` pending. -/
def irqErr : Irqs := ⟨true, false, false, false⟩

/-- Only `RD_LVL` pending. -/
def irqRd : Irqs := ⟨false, true, false, false⟩

/-- Only `PROG_EMPTY` pending. -/
def irqPE : Irqs := ⟨false, false, true, false⟩

/-- Only `OP_DONE` pending. -/
def irqDone : Irqs := ⟨false, false, false, true⟩

/-- A concrete page buffer with allocation identity 0. -/
def pgA : Page := ⟨0, fun _ => 0⟩

/-- A second, distinct page buffer with allocation identity 1. -/
def pgB : Page := ⟨1, fun _ => 170⟩

/-- The values of all control-register writes in an event list. -/
def controlWrites : List Event → List Nat
  | [] => []
  | .regWrite .control v :: r => v :: controlWrites r
  | _ :: r => controlWrites r

/-- A full-page write followed by 31 further `PROG_EMPTY` refills: drives
`write_index` to `PAGE_SIZE` with the write buffer still held (the
`OP_DONE` that would release it has not yet been serviced). -/
def wholePageWriteTrace : List OpCall :=
  OpCall.writeP 0 pgA hwOk :: List.replicate 31 (OpCall.irq irqPE hwOk)

/-- Total number of flash pages of the data partition (two banks of
`FLASH_PAGES_PER_BANK` pages). -/
def FLASH_MAX_PAGES : Nat := 2 * FLASH_PAGES_PER_BANK

/-- `FLASH_MP_MAX_CFGS`: number of memory-protection config regions
(the `mp_region_cfg` register array has 8 entries). -/
def FLASH_MP_MAX_CFGS : Nat := 8

/-- `hil::flash::FlashMPAdvConfig`. -/
structure FlashMPAdvConfig where
  read_en : Bool
  write_en : Bool
  erase_en : Bool
  scramble_en : Bool
  ecc_en : Bool
  he_en : Bool

/-- The memory-protection region registers. -/
structure MPRegs where
  mpRegionCfgA : Nat → Nat
  mpRegionA : Nat → Nat

/-- The set/clear sentinel encoding of one permission bit (`0x6` = set,
`0x9` = clear). -/
def mpEnc (b : Bool) : Nat := if b then 6 else 9

/-- Modelled from the spec: the lowRISC implementation of
`FlashMemoryProtection::set_region_perms` is not part of `src/` (only the
trait declaration in `kernel/src/hil/flash.rs` and its board tests in
`boards/opentitan/src/tests/flash_ctrl.rs` are present).  Following spec
section 4.3: `region_num` must be below the total region count (else
`NotSupported`), `page_number` must be within the valid page range (else
`NotSupported`, since the hardware cannot represent out-of-range base
addresses), and `num_pages` must not exceed the pages the partition has
remaining from `page_number` (else `InvalidArgument`); on success the
region's base/size fields and the six permission bits are programmed with
the set/clear sentinel encoding and the region is then enabled.  Returns
the (possibly updated) registers and the error, errors leaving the
registers untouched. -/
def set_region_perms (regs : MPRegs) (page_number num_pages region_num : Nat)
    (p : FlashMPAdvConfig) : MPRegs × Option ErrorCode :=
  if FLASH_MP_MAX_CFGS ≤ region_num then (regs, some .NOSUPPORT)
  else if FLASH_MAX_PAGES ≤ page_number then (regs, some .NOSUPPORT)
  else if FLASH_MAX_PAGES - page_number < num_pages then (regs, some .INVAL)
  else
    let cfg := mpEnc p.read_en * 16 + mpEnc p.write_en * 256 +
      mpEnc p.erase_en * 4096 + mpEnc p.scramble_en * 65536 +
      mpEnc p.ecc_en * 1048576 + mpEnc p.he_en * 16777216
    let cfg2 := setField cfg 0 4 6
    ({ mpRegionCfgA := fun i =>
        if i = region_num then cfg2 else regs.mpRegionCfgA i
       mpRegionA := fun i =>
        if i = region_num then page_number + num_pages * 512
        else regs.mpRegionA i },
     none)


/-- Conservation of the held read buffer across one step emitting `evs`:
if no buffer is held none appears, and a held buffer is either still held
(same allocation) with no `read_complete` emitted, or released with
exactly one `read_complete` carrying that very buffer. -/
def ReadCons (s s2 : St) (evs : List Event) : Prop :=
  (s.readBuf = none → s2.readBuf = none ∧ readCbs evs = []) ∧
  (∀ b : Page, s.readBuf = some b →
    ((∃ b2, s2.readBuf = some b2 ∧ b2.pid = b.pid) ∧ readCbs evs = []) ∨
    (s2.readBuf = none ∧ ∃ e, readCbs evs = [(b.pid, e)]))

/-- Conservation of the held write buffer (see `ReadCons`). -/
def WriteCons (s s2 : St) (evs : List Event) : Prop :=
  (s.writeBuf = none → s2.writeBuf = none ∧ writeCbs evs = []) ∧
  (∀ b : Page, s.writeBuf = some b →
    ((∃ b2, s2.writeBuf = some b2 ∧ b2.pid = b.pid) ∧ writeCbs evs = []) ∨
    (s2.writeBuf = none ∧ ∃ e, writeCbs evs = [(b.pid, e)]))

-- ===== theorems below =====

/-- Masking a 32-bit value with `0xFFFFFFF0` clears its low four bits. -/
theorem land_window_mask (x : Nat) (hx : x < 2 ^ 32) :
    Nat.land x FLASH_PROG_WINDOW_MASK = x - x % 16 := by
  have hmask : FLASH_PROG_WINDOW_MASK = (2 ^ 28 - 1) <<< 4 := by
    norm_num [FLASH_PROG_WINDOW_MASK, Nat.shiftLeft_eq]
  have hrhs : x - x % 16 = (x >>> 4) <<< 4 := by
    have := Nat.div_add_mod x 16
    simp only [Nat.shiftRight_eq_div_pow, Nat.shiftLeft_eq]
    norm_num
    omega
  rw [hmask, hrhs]
  rw [show Nat.land x ((2 ^ 28 - 1) <<< 4) = x &&& (2 ^ 28 - 1) <<< 4 from rfl]
  apply Nat.eq_of_testBit_eq
  intro i
  rw [Nat.testBit_land, Nat.testBit_shiftLeft, Nat.testBit_shiftLeft,
    Nat.testBit_shiftRight, Nat.testBit_two_pow_sub_one]
  by_cases h4 : 4 ≤ i
  · by_cases h32 : i < 32
    · have : i - 4 < 28 := by omega
      have : 4 + (i - 4) = i := by omega
      simp_all
    · have hx' : x < 2 ^ i := lt_of_lt_of_le hx (Nat.pow_le_pow_right (by norm_num) (by omega))
      have hb : x.testBit i = false := Nat.testBit_lt_two_pow hx'
      have hb2 : x.testBit (4 + (i - 4)) = false := by
        rw [show 4 + (i - 4) = i by omega]
        exact hb
      simp [hb, hb2]
  · simp [h4]

/-- The window-limit subexpression computes `16 - word_addr % 16`, even
where the `u32` addition or subtraction wraps. -/
theorem window_limit_eq (a : Nat) (ha : a < U32) :
    sub32 (Nat.land ((a + FLASH_PROG_WINDOW_SIZE) % U32) FLASH_PROG_WINDOW_MASK) a
      = 16 - a % 16 := by
  have hlt : (a + FLASH_PROG_WINDOW_SIZE) % U32 < 2 ^ 32 := by
    have hU : (0 : Nat) < U32 := by norm_num [U32]
    have := Nat.mod_lt (a + FLASH_PROG_WINDOW_SIZE) hU
    norm_num [U32] at this ⊢
    omega
  rw [land_window_mask _ hlt]
  simp only [sub32, U32, FLASH_PROG_WINDOW_SIZE] at *
  omega

theorem readCbs_append (a b : List Event) :
    readCbs (a ++ b) = readCbs a ++ readCbs b := by
  induction a with
  | nil => rfl
  | cons e r ih => cases e <;> simp [readCbs, ih]

theorem writeCbs_append (a b : List Event) :
    writeCbs (a ++ b) = writeCbs a ++ writeCbs b := by
  induction a with
  | nil => rfl
  | cons e r ih => cases e <;> simp [writeCbs, ih]

theorem eraseCbs_append (a b : List Event) :
    eraseCbs (a ++ b) = eraseCbs a ++ eraseCbs b := by
  induction a with
  | nil => rfl
  | cons e r ih => cases e <;> simp [eraseCbs, ih]

theorem numCallbacks_append (a b : List Event) :
    numCallbacks (a ++ b) = numCallbacks a + numCallbacks b := by
  induction a with
  | nil => simp [numCallbacks]
  | cons e r ih => cases e <;> simp [numCallbacks, ih] <;> omega

theorem cbErrs_append (a b : List Event) :
    cbErrs (a ++ b) = cbErrs a ++ cbErrs b := by
  induction a with
  | nil => rfl
  | cons e r ih => cases e <;> simp [cbErrs, ih]

theorem dataCfgWrites_append (a b : List Event) :
    dataCfgWrites (a ++ b) = dataCfgWrites a + dataCfgWrites b := by
  induction a with
  | nil => simp [dataCfgWrites]
  | cons e r ih =>
    cases e with
    | regWrite rn v => cases rn <;> simp [dataCfgWrites, ih] <;> omega
    | readComplete b e => simp [dataCfgWrites, ih]
    | writeComplete b e => simp [dataCfgWrites, ih]
    | eraseComplete e => simp [dataCfgWrites, ih]

theorem infoCfgWrites_append (a b : List Event) :
    infoCfgWrites (a ++ b) = infoCfgWrites a + infoCfgWrites b := by
  induction a with
  | nil => simp [infoCfgWrites]
  | cons e r ih =>
    cases e with
    | regWrite rn v => cases rn <;> simp [infoCfgWrites, ih] <;> omega
    | readComplete b e => simp [infoCfgWrites, ih]
    | writeComplete b e => simp [infoCfgWrites, ih]
    | eraseComplete e => simp [infoCfgWrites, ih]

/-- C4: `calculate_max_prog_len` returns the minimum of the words that fit
the remaining data and the words left before the next window boundary. -/
theorem calculate_max_prog_len_eq (a r : Nat) (ha : a < U32) (_hr : r < U32) :
    calculate_max_prog_len a r = min (r / 4) (16 - a % 16) := by
  rw [calculate_max_prog_len, window_limit_eq a ha]
  simp only [min_def]
  split <;> split <;> omega

theorem controlWrites_append (a b : List Event) :
    controlWrites (a ++ b) = controlWrites a ++ controlWrites b := by
  induction a with
  | nil => simp [controlWrites]
  | cons e r ih =>
    cases e with
    | regWrite rn v => cases rn <;> simp [controlWrites, ih]
    | readComplete b e => simp [controlWrites, ih]
    | writeComplete b e => simp [controlWrites, ih]
    | eraseComplete e => simp [controlWrites, ih]

/-- The double `modify` that clears the two bank-erase enables amounts to
clearing the low two bits. -/
theorem setField_clear2 (m : Nat) :
    setField (setField m 0 1 0) 1 1 0 = m - m % 4 := by
  simp only [setField, getField, pow_zero, pow_one, Nat.div_one, mul_one]
  omega

/-- C4: for every word address `a` and remaining byte count `r` (as `u32`
values), `calculate_max_prog_len a r` is the minimum of `r / 4` (the words
that fit the remaining data) and `16 - a % 16` (the words left before the
next 16-word programming-resolution window boundary); consequently a run
of that length starting at `a` never exceeds the remaining data and never
crosses a window boundary. -/
theorem C4_max_prog_len (a r : Nat) (ha : a < U32) (hr : r < U32) :
    calculate_max_prog_len a r = min (r / 4) (16 - a % 16) ∧
    calculate_max_prog_len a r ≤ r / 4 ∧
    a % 16 + calculate_max_prog_len a r ≤ 16 := by
  have h : calculate_max_prog_len a r = min (r / 4) (16 - a % 16) := by
    rw [calculate_max_prog_len, window_limit_eq a ha]
    simp only [min_def]
    split <;> split <;> omega
  have h1 := min_le_left (r / 4) (16 - a % 16)
  have h2 := min_le_right (r / 4) (16 - a % 16)
  have h3 : a % 16 < 16 := Nat.mod_lt _ (by norm_num)
  exact ⟨h, by omega, by omega⟩

/-- Witness for C4 at `a = 5`, `r = 100`. -/
theorem C4_max_prog_len_witness :
    calculate_max_prog_len 5 100 = min (100 / 4) (16 - 5 % 16) ∧
    calculate_max_prog_len 5 100 ≤ 100 / 4 ∧
    5 % 16 + calculate_max_prog_len 5 100 ≤ 16 :=
  C4_max_prog_len 5 100 (by norm_num [U32]) (by norm_num [U32])

/-- C6: `set_region_perms` returns `NotSupported` for a region index not
below the region count, `NotSupported` for a page number outside the valid
page range, `InvalidArgument` when `num_pages` exceeds the pages remaining
from `page_number`, and on each of these error returns leaves the
hardware-visible region registers unchanged. -/
theorem C6_set_region_perms (regs : MPRegs) (pn np rn : Nat)
    (p : FlashMPAdvConfig) :
    (FLASH_MP_MAX_CFGS ≤ rn →
      set_region_perms regs pn np rn p = (regs, some .NOSUPPORT)) ∧
    (rn < FLASH_MP_MAX_CFGS → FLASH_MAX_PAGES ≤ pn →
      set_region_perms regs pn np rn p = (regs, some .NOSUPPORT)) ∧
    (rn < FLASH_MP_MAX_CFGS → pn < FLASH_MAX_PAGES →
      FLASH_MAX_PAGES - pn < np →
      set_region_perms regs pn np rn p = (regs, some .INVAL)) := by
  refine ⟨fun h1 => ?_, fun h1 h2 => ?_, fun h1 h2 h3 => ?_⟩
  · simp only [set_region_perms, if_pos h1]
  · simp only [set_region_perms]
    rw [if_neg (by omega), if_pos h2]
  · simp only [set_region_perms]
    rw [if_neg (by omega), if_neg (by omega), if_pos h3]

/-- Witness for C6 at the board test's inputs: region 8 (out of range),
page 512 (out of range), and 1000 pages from page 400 (too many). -/
theorem C6_set_region_perms_witness :
    set_region_perms ⟨fun _ => 0, fun _ => 0⟩ 400 10 8
        ⟨false, true, false, false, true, false⟩ =
      (⟨fun _ => 0, fun _ => 0⟩, some .NOSUPPORT) ∧
    set_region_perms ⟨fun _ => 0, fun _ => 0⟩ 512 10 6
        ⟨false, true, false, false, true, false⟩ =
      (⟨fun _ => 0, fun _ => 0⟩, some .NOSUPPORT) ∧
    set_region_perms ⟨fun _ => 0, fun _ => 0⟩ 400 1000 6
        ⟨false, true, false, false, true, false⟩ =
      (⟨fun _ => 0, fun _ => 0⟩, some .INVAL) :=
  ⟨(C6_set_region_perms _ 400 10 8 _).1 (by norm_num [FLASH_MP_MAX_CFGS]),
   (C6_set_region_perms _ 512 10 6 _).2.1
     (by norm_num [FLASH_MP_MAX_CFGS])
     (by norm_num [FLASH_MAX_PAGES, FLASH_PAGES_PER_BANK]),
   (C6_set_region_perms _ 400 1000 6 _).2.2
     (by norm_num [FLASH_MP_MAX_CFGS])
     (by norm_num [FLASH_MAX_PAGES, FLASH_PAGES_PER_BANK])
     (by norm_num [FLASH_MAX_PAGES, FLASH_PAGES_PER_BANK])⟩

/-- C7: before `erase_page` issues the erase command, it clears the
bank-erase enables of both banks by writing the cleared value to the
shadowed bank-config register twice in a row, and the single control-write
that then starts the operation selects `OP = ERASE` with
`ERASE_SEL = PAGE` (never bank erase). -/
theorem C7_erase_page (s : St) (p : Nat) (hw : HwIn) :
    ∃ pre v a,
      (erase_page s p hw).2.1 =
        pre ++ [Event.regWrite .mpBankCfgShadowed v,
                Event.regWrite .mpBankCfgShadowed v,
                Event.regWrite .addrReg a,
                Event.regWrite .intrEnable 57,
                Event.regWrite .control 33] ∧
      getField v 0 1 = 0 ∧ getField v 1 1 = 0 ∧
      controlWrites (erase_page s p hw).2.1 = [33] ∧
      getField 33 4 2 = 2 ∧ getField 33 7 1 = 0 ∧
      (erase_page s p hw).2.2 = none := by
  have hv1 : setField (setField s.regs.mpBankCfg 0 1 0) 1 1 0
      = s.regs.mpBankCfg - s.regs.mpBankCfg % 4 := setField_clear2 _
  have hv2 : setField (setField (s.regs.mpBankCfg - s.regs.mpBankCfg % 4) 0 1 0) 1 1 0
      = s.regs.mpBankCfg - s.regs.mpBankCfg % 4 := by
    rw [setField_clear2]
    omega
  have hb0 : getField (s.regs.mpBankCfg - s.regs.mpBankCfg % 4) 0 1 = 0 := by
    simp only [getField, pow_zero, pow_one, Nat.div_one]
    omega
  have hb1 : getField (s.regs.mpBankCfg - s.regs.mpBankCfg % 4) 1 1 = 0 := by
    simp only [getField, pow_one]
    omega
  refine ⟨(erase_page s p hw).2.1.take ((erase_page s p hw).2.1.length - 5),
    s.regs.mpBankCfg - s.regs.mpBankCfg % 4, p * PAGE_SIZE % U32,
    ?_, hb0, hb1, ?_, by decide, by decide, ?_⟩
  · cases hd : s.dataConfigured <;> cases hi : s.infoConfigured <;>
      simp [erase_page, configure_data_partition, configure_info_partition,
        enable_interrupts, hd, hi, hv1, hv2]
  · cases hd : s.dataConfigured <;> cases hi : s.infoConfigured <;>
      simp [erase_page, configure_data_partition, configure_info_partition,
        enable_interrupts, hd, hi, controlWrites_append, controlWrites]
  · cases hd : s.dataConfigured <;> cases hi : s.infoConfigured <;>
      simp [erase_page, configure_data_partition, configure_info_partition,
        enable_interrupts, hd, hi]

/-- C5 (amended): when `read_page` or `write_page` rejects a request
synchronously with `Busy` (hardware control register not writable), the
page buffer is handed back unchanged, no callback is emitted, and the
driver's cursor and held-buffer state is untouched (the lazy partition
configuration and the interrupt-enable/FIFO-level writes, however, do run
before the check — see the counterexample). -/
theorem C5_sync_reject (s : St) (p : Nat) (b : Page) (hw : HwIn)
    (h : hw.ctrlRegwen = false) :
    (read_page s p b hw).2.2 = some (.BUSY, b) ∧
    numCallbacks (read_page s p b hw).2.1 = 0 ∧
    (read_page s p b hw).1.readBuf = s.readBuf ∧
    (read_page s p b hw).1.readIndex = s.readIndex ∧
    (read_page s p b hw).1.writeBuf = s.writeBuf ∧
    (read_page s p b hw).1.writeIndex = s.writeIndex ∧
    (read_page s p b hw).1.writeWordAddr = s.writeWordAddr ∧
    (write_page s p b hw).2.2 = some (.BUSY, b) ∧
    numCallbacks (write_page s p b hw).2.1 = 0 ∧
    (write_page s p b hw).1.readBuf = s.readBuf ∧
    (write_page s p b hw).1.readIndex = s.readIndex ∧
    (write_page s p b hw).1.writeBuf = s.writeBuf ∧
    (write_page s p b hw).1.writeIndex = s.writeIndex ∧
    (write_page s p b hw).1.writeWordAddr = s.writeWordAddr := by
  cases hd : s.dataConfigured <;> cases hi : s.infoConfigured <;>
    simp [read_page, write_page, configure_data_partition,
      configure_info_partition, enable_interrupts, h, hd, hi,
      numCallbacks_append, numCallbacks]

/-- Witness for C5: a rejected read and write on a fresh controller. -/
theorem C5_sync_reject_witness :
    (read_page (initSt 1) 5 pgA hwBusy).2.2 = some (.BUSY, pgA) ∧
    numCallbacks (read_page (initSt 1) 5 pgA hwBusy).2.1 = 0 ∧
    (read_page (initSt 1) 5 pgA hwBusy).1.readBuf = (initSt 1).readBuf ∧
    (read_page (initSt 1) 5 pgA hwBusy).1.readIndex = (initSt 1).readIndex ∧
    (read_page (initSt 1) 5 pgA hwBusy).1.writeBuf = (initSt 1).writeBuf ∧
    (read_page (initSt 1) 5 pgA hwBusy).1.writeIndex = (initSt 1).writeIndex ∧
    (read_page (initSt 1) 5 pgA hwBusy).1.writeWordAddr
      = (initSt 1).writeWordAddr ∧
    (write_page (initSt 1) 5 pgA hwBusy).2.2 = some (.BUSY, pgA) ∧
    numCallbacks (write_page (initSt 1) 5 pgA hwBusy).2.1 = 0 ∧
    (write_page (initSt 1) 5 pgA hwBusy).1.readBuf = (initSt 1).readBuf ∧
    (write_page (initSt 1) 5 pgA hwBusy).1.readIndex = (initSt 1).readIndex ∧
    (write_page (initSt 1) 5 pgA hwBusy).1.writeBuf = (initSt 1).writeBuf ∧
    (write_page (initSt 1) 5 pgA hwBusy).1.writeIndex
      = (initSt 1).writeIndex ∧
    (write_page (initSt 1) 5 pgA hwBusy).1.writeWordAddr
      = (initSt 1).writeWordAddr :=
  C5_sync_reject (initSt 1) 5 pgA hwBusy rfl

/-- C5 counterexample: a `Busy`-rejected `read_page` on an unconfigured
controller does mutate state — it sets both partition-configuration flags
and writes the default-region and info-page permission registers before
rejecting, so "no state transition occurs" is false as stated. -/
theorem C5_counterexample :
    (read_page (initSt 1) 5 pgA hwBusy).2.2 = some (.BUSY, pgA) ∧
    (initSt 1).dataConfigured = false ∧
    (initSt 1).infoConfigured = false ∧
    (read_page (initSt 1) 5 pgA hwBusy).1.dataConfigured = true ∧
    (read_page (initSt 1) 5 pgA hwBusy).1.infoConfigured = true ∧
    dataCfgWrites (read_page (initSt 1) 5 pgA hwBusy).2.1 = 1 ∧
    infoCfgWrites (read_page (initSt 1) 5 pgA hwBusy).2.1 = 2 :=
  ⟨rfl, rfl, rfl, rfl, rfl, rfl, rfl⟩

/-- C3 (amended): the busy rejection is keyed on the hardware
`CTRL_REGWEN` bit: whenever the hardware reports the control register not
writable, a second `read_page`/`write_page` fails synchronously with
`Busy`, hands the new buffer back, does not disturb the in-flight
operation's cursors or held buffers, and emits no callback. -/
theorem C3_busy_reject (s : St) (p : Nat) (b : Page) (hw : HwIn)
    (hflight : s.readBuf.isSome = true ∨ s.writeBuf.isSome = true)
    (h : hw.ctrlRegwen = false) :
    (read_page s p b hw).2.2 = some (.BUSY, b) ∧
    (write_page s p b hw).2.2 = some (.BUSY, b) ∧
    heldReadId (read_page s p b hw).1 = heldReadId s ∧
    heldWriteId (read_page s p b hw).1 = heldWriteId s ∧
    (read_page s p b hw).1.readIndex = s.readIndex ∧
    (read_page s p b hw).1.writeIndex = s.writeIndex ∧
    (read_page s p b hw).1.writeWordAddr = s.writeWordAddr ∧
    heldReadId (write_page s p b hw).1 = heldReadId s ∧
    heldWriteId (write_page s p b hw).1 = heldWriteId s ∧
    (write_page s p b hw).1.readIndex = s.readIndex ∧
    (write_page s p b hw).1.writeIndex = s.writeIndex ∧
    (write_page s p b hw).1.writeWordAddr = s.writeWordAddr ∧
    numCallbacks (read_page s p b hw).2.1 = 0 ∧
    numCallbacks (write_page s p b hw).2.1 = 0 := by
  cases hd : s.dataConfigured <;> cases hi : s.infoConfigured <;>
    simp [read_page, write_page, configure_data_partition,
      configure_info_partition, enable_interrupts, heldReadId, heldWriteId,
      h, hd, hi, numCallbacks_append, numCallbacks]

/-- Witness for C3: second request rejected while a read holds `pgA`. -/
theorem C3_busy_reject_witness :
    (read_page (runS (initSt 1) (.readP 5 pgA hwOk)) 6 pgB hwBusy).2.2
      = some (.BUSY, pgB) ∧
    (write_page (runS (initSt 1) (.readP 5 pgA hwOk)) 6 pgB hwBusy).2.2
      = some (.BUSY, pgB) ∧
    heldReadId (read_page (runS (initSt 1) (.readP 5 pgA hwOk)) 6 pgB hwBusy).1
      = heldReadId (runS (initSt 1) (.readP 5 pgA hwOk)) ∧
    heldWriteId (read_page (runS (initSt 1) (.readP 5 pgA hwOk)) 6 pgB hwBusy).1
      = heldWriteId (runS (initSt 1) (.readP 5 pgA hwOk)) ∧
    (read_page (runS (initSt 1) (.readP 5 pgA hwOk)) 6 pgB hwBusy).1.readIndex
      = (runS (initSt 1) (.readP 5 pgA hwOk)).readIndex ∧
    (read_page (runS (initSt 1) (.readP 5 pgA hwOk)) 6 pgB hwBusy).1.writeIndex
      = (runS (initSt 1) (.readP 5 pgA hwOk)).writeIndex ∧
    (read_page (runS (initSt 1) (.readP 5 pgA hwOk)) 6 pgB hwBusy).1.writeWordAddr
      = (runS (initSt 1) (.readP 5 pgA hwOk)).writeWordAddr ∧
    heldReadId (write_page (runS (initSt 1) (.readP 5 pgA hwOk)) 6 pgB hwBusy).1
      = heldReadId (runS (initSt 1) (.readP 5 pgA hwOk)) ∧
    heldWriteId (write_page (runS (initSt 1) (.readP 5 pgA hwOk)) 6 pgB hwBusy).1
      = heldWriteId (runS (initSt 1) (.readP 5 pgA hwOk)) ∧
    (write_page (runS (initSt 1) (.readP 5 pgA hwOk)) 6 pgB hwBusy).1.readIndex
      = (runS (initSt 1) (.readP 5 pgA hwOk)).readIndex ∧
    (write_page (runS (initSt 1) (.readP 5 pgA hwOk)) 6 pgB hwBusy).1.writeIndex
      = (runS (initSt 1) (.readP 5 pgA hwOk)).writeIndex ∧
    (write_page (runS (initSt 1) (.readP 5 pgA hwOk)) 6 pgB hwBusy).1.writeWordAddr
      = (runS (initSt 1) (.readP 5 pgA hwOk)).writeWordAddr ∧
    numCallbacks (read_page (runS (initSt 1) (.readP 5 pgA hwOk)) 6 pgB hwBusy).2.1
      = 0 ∧
    numCallbacks (write_page (runS (initSt 1) (.readP 5 pgA hwOk)) 6 pgB hwBusy).2.1
      = 0 :=
  C3_busy_reject (runS (initSt 1) (.readP 5 pgA hwOk)) 6 pgB hwBusy
    (Or.inl (by decide)) rfl

/-- C3 counterexample: the rejection is not keyed on "a buffer is held" —
with a read in flight (buffer `pgA` held) but the hardware reporting
`CTRL_REGWEN` writable, a second `read_page` is accepted (no busy error)
and silently replaces the held buffer. -/
theorem C3_counterexample :
    heldReadId (runS (initSt 1) (.readP 5 pgA hwOk)) = some 0 ∧
    (read_page (runS (initSt 1) (.readP 5 pgA hwOk)) 6 pgB hwOk).2.2 = none ∧
    heldReadId (read_page (runS (initSt 1) (.readP 5 pgA hwOk)) 6 pgB hwOk).1
      = some 1 :=
  ⟨rfl, rfl, rfl⟩

theorem cbErrs_fillLoop (pf : Nat → Bool) (buf : Page) :
    ∀ (l : List Nat) (ww widx : Nat),
      cbErrs (fillLoop pf buf l ww widx).events = [] := by
  intro l
  induction l with
  | nil => intro ww widx; rfl
  | cons i rest ih =>
    intro ww widx
    simp only [fillLoop]
    split
    · rfl
    · simp [cbErrs, ih]

theorem notMP_disable (s : St) :
    Ferr.flashMPError ∉ cbErrs (disable_interrupts s).2 := by
  simp [disable_interrupts, cbErrs]

theorem notMP_opError (s : St) (f : Bool) :
    Ferr.flashMPError ∉ cbErrs (opErrorStep s f).2 := by
  cases f <;> cases hr : s.readBuf <;> cases hw : s.writeBuf <;>
    simp [opErrorStep, hr, hw, cbErrs]

theorem notMP_rdLvl (s : St) (f : Bool) (fifo : List Nat) :
    Ferr.flashMPError ∉ cbErrs (rdLvlStep s f fifo).2 := by
  cases f <;> cases hr : s.readBuf <;>
    simp [rdLvlStep, hr, enable_interrupts, cbErrs]

theorem notMP_progEmpty (s : St) (f : Bool) (pf : Nat → Bool) :
    Ferr.flashMPError ∉ cbErrs (progEmptyStep s f pf).2 := by
  cases f <;> cases hw : s.writeBuf <;>
    simp [progEmptyStep, hw, enable_interrupts, cbErrs, cbErrs_append,
      cbErrs_fillLoop]

theorem notMP_opDone (s : St) (f : Bool) :
    Ferr.flashMPError ∉ cbErrs (opDoneStep s f).2 := by
  cases f
  · simp [opDoneStep, cbErrs]
  · cases hr : s.readBuf <;> cases hw : s.writeBuf <;>
      by_cases h0 : getField s.regs.control 4 2 = 0 <;>
      by_cases h1 : getField s.regs.control 4 2 = 1 <;>
      by_cases h2 : getField s.regs.control 4 2 = 2 <;>
      by_cases hri : PAGE_SIZE ≤ s.readIndex <;>
      by_cases hwi : PAGE_SIZE ≤ s.writeIndex <;>
      simp [opDoneStep, hr, hw, h0, h1, h2, hri, hwi, cbErrs,
        enable_interrupts]

/-- C2: the claim that a memory-protection violation is delivered as
`FlashMPError` fails on this code: the interrupt handler has a single
`OP_ERROR` path that always delivers `FlashError` — it never reads the
error-code register and never produces `FlashMPError` for any state or
interrupt pattern.  Concretely, an MP-faulted read of page 450 (the board
test scenario) completes with `FlashError`. -/
theorem C2_mp_fault_reported_as_flash_error :
    readCbs (handle_interrupt (runS (initSt 1) (.readP 450 pgA hwOk))
        irqErr hwOk).2 = [(pgA.pid, .flashError)] ∧
    Ferr.flashError ≠ Ferr.flashMPError ∧
    ∀ s irqs hw,
      Ferr.flashMPError ∉ cbErrs (handle_interrupt s irqs hw).2 := by
  refine ⟨rfl, by decide, fun s irqs hw => ?_⟩
  simp only [handle_interrupt, cbErrs_append, List.mem_append]
  push_neg
  exact ⟨⟨⟨⟨notMP_disable _, notMP_opError _ _⟩, notMP_rdLvl _ _ _⟩,
    notMP_progEmpty _ _ _⟩, notMP_opDone _ _⟩

theorem drainLoop_inv (fifo : List Nat) :
    ∀ (buf : Page) (idx : Nat), idx % 4 = 0 → idx ≤ PAGE_SIZE →
      (drainLoop buf idx fifo).readIndex % 4 = 0 ∧
      (drainLoop buf idx fifo).readIndex ≤ PAGE_SIZE ∧
      ∀ o ∈ (drainLoop buf idx fifo).offsets, o % 4 = 0 ∧ o + 3 < PAGE_SIZE := by
  induction fifo with
  | nil =>
    intro buf idx h1 h2
    exact ⟨h1, h2, by simp [drainLoop]⟩
  | cons d rest ih =>
    intro buf idx h1 h2
    simp only [drainLoop]
    split
    · rename_i hlt
      have h4 : (idx + 4) % 4 = 0 := by omega
      have h4' : idx + 4 ≤ PAGE_SIZE := by
        simp only [PAGE_SIZE] at hlt ⊢
        omega
      have := ih
        ((((buf.upd idx (d % 256)).upd (idx + 1) (d / 256 % 256)).upd
            (idx + 2) (d / 65536 % 256)).upd (idx + 3) (d / 16777216 % 256))
        (idx + 4) h4 h4'
      refine ⟨this.1, this.2.1, ?_⟩
      intro o ho
      simp only [List.mem_cons] at ho
      rcases ho with rfl | ho
      · constructor
        · exact h1
        · simp only [PAGE_SIZE] at hlt ⊢
          omega
      · exact this.2.2 o ho
    · exact ⟨h1, h2, by simp⟩

theorem opErrorStep_readIndex (s : St) (f : Bool) :
    (opErrorStep s f).1.readIndex = s.readIndex := by
  cases f <;> simp [opErrorStep]

theorem progEmptyStep_readIndex (s : St) (f : Bool) (pf : Nat → Bool) :
    (progEmptyStep s f pf).1.readIndex = s.readIndex := by
  cases f <;> cases hw : s.writeBuf <;>
    simp [progEmptyStep, hw, enable_interrupts]

theorem opDoneStep_readIndex (s : St) (f : Bool) :
    (opDoneStep s f).1.readIndex = s.readIndex := by
  cases f
  · simp [opDoneStep]
  · cases hr : s.readBuf <;> cases hw : s.writeBuf <;>
      by_cases h0 : getField s.regs.control 4 2 = 0 <;>
      by_cases h1 : getField s.regs.control 4 2 = 1 <;>
      by_cases h2 : getField s.regs.control 4 2 = 2 <;>
      by_cases hri : PAGE_SIZE ≤ s.readIndex <;>
      by_cases hwi : PAGE_SIZE ≤ s.writeIndex <;>
      simp [opDoneStep, hr, hw, h0, h1, h2, hri, hwi, enable_interrupts]

theorem rdLvlStep_readIndex_inv (s : St) (f : Bool) (fifo : List Nat)
    (h1 : s.readIndex % 4 = 0) (h2 : s.readIndex ≤ PAGE_SIZE) :
    (rdLvlStep s f fifo).1.readIndex % 4 = 0 ∧
    (rdLvlStep s f fifo).1.readIndex ≤ PAGE_SIZE := by
  cases f
  · simp [rdLvlStep, h1, h2]
  · cases hr : s.readBuf with
    | none => simp [rdLvlStep, hr, h1, h2]
    | some b0 =>
      have := drainLoop_inv fifo b0 s.readIndex h1 h2
      simp [rdLvlStep, hr, enable_interrupts, this.1, this.2.1]

theorem handle_interrupt_readIndex_inv (s : St) (irqs : Irqs) (hw : HwIn)
    (h1 : s.readIndex % 4 = 0) (h2 : s.readIndex ≤ PAGE_SIZE) :
    (handle_interrupt s irqs hw).1.readIndex % 4 = 0 ∧
    (handle_interrupt s irqs hw).1.readIndex ≤ PAGE_SIZE := by
  simp only [handle_interrupt, opDoneStep_readIndex, progEmptyStep_readIndex]
  apply rdLvlStep_readIndex_inv
  · rw [opErrorStep_readIndex]
    simpa [disable_interrupts] using h1
  · rw [opErrorStep_readIndex]
    simpa [disable_interrupts] using h2

theorem runS_readIndex_inv (s : St) (c : OpCall)
    (h1 : s.readIndex % 4 = 0) (h2 : s.readIndex ≤ PAGE_SIZE) :
    (runS s c).readIndex % 4 = 0 ∧ (runS s c).readIndex ≤ PAGE_SIZE := by
  cases c with
  | readP p b hw =>
    cases hd : s.dataConfigured <;> cases hi : s.infoConfigured <;>
      cases hc : hw.ctrlRegwen <;>
      simp [runS, runOp, read_page, configure_data_partition,
        configure_info_partition, enable_interrupts, hd, hi, hc, h1, h2]
  | writeP p b hw =>
    cases hd : s.dataConfigured <;> cases hi : s.infoConfigured <;>
      cases hc : hw.ctrlRegwen <;>
      simp [runS, runOp, write_page, configure_data_partition,
        configure_info_partition, enable_interrupts, hd, hi, hc, h1, h2]
  | eraseP p hw =>
    cases hd : s.dataConfigured <;> cases hi : s.infoConfigured <;>
      simp [runS, runOp, erase_page, configure_data_partition,
        configure_info_partition, enable_interrupts, hd, hi, h1, h2]
  | irq irqs hw => exact handle_interrupt_readIndex_inv s irqs hw h1 h2

/-- C9: from the initial state, along any sequence of driver operations and
interrupts, `read_index` stays a multiple of four and at most `PAGE_SIZE`;
and every four-byte store group the FIFO drain loop performs starts at a
multiple of four with its last byte strictly inside the `PAGE_SIZE`-byte
buffer, so the stores can never go out of bounds. -/
theorem C9_read_index_in_bounds :
    (∀ (rn : Nat) (ops : List OpCall),
      (runTraceS (initSt rn) ops).readIndex % 4 = 0 ∧
      (runTraceS (initSt rn) ops).readIndex ≤ PAGE_SIZE) ∧
    (∀ (buf : Page) (idx : Nat) (fifo : List Nat),
      idx % 4 = 0 → idx ≤ PAGE_SIZE →
      ∀ o ∈ (drainLoop buf idx fifo).offsets, o % 4 = 0 ∧ o + 3 < PAGE_SIZE) := by
  constructor
  · intro rn ops
    suffices h : ∀ (ops : List OpCall) (s : St),
        s.readIndex % 4 = 0 → s.readIndex ≤ PAGE_SIZE →
        (runTraceS s ops).readIndex % 4 = 0 ∧
        (runTraceS s ops).readIndex ≤ PAGE_SIZE by
      exact h ops (initSt rn) rfl (by simp [initSt, PAGE_SIZE])
    intro ops
    induction ops with
    | nil => intro s h1 h2; exact ⟨h1, h2⟩
    | cons c cs ih =>
      intro s h1 h2
      have := runS_readIndex_inv s c h1 h2
      exact ih (runS s c) this.1 this.2
  · intro buf idx fifo h1 h2
    exact (drainLoop_inv fifo buf idx h1 h2).2.2

/-- Witness for C9: a concrete trace (read accepted, FIFO fully drained)
and a concrete drain call. -/
theorem C9_read_index_in_bounds_witness :
    ((runTraceS (initSt 1)
        [OpCall.readP 5 pgA hwOk, OpCall.irq irqRd hwFifoFull]).readIndex % 4 = 0 ∧
     (runTraceS (initSt 1)
        [OpCall.readP 5 pgA hwOk, OpCall.irq irqRd hwFifoFull]).readIndex
          ≤ PAGE_SIZE) ∧
    (∀ o ∈ (drainLoop pgA 8 [17, 34, 51]).offsets,
      o % 4 = 0 ∧ o + 3 < PAGE_SIZE) :=
  ⟨C9_read_index_in_bounds.1 1 [OpCall.readP 5 pgA hwOk, OpCall.irq irqRd hwFifoFull],
   C9_read_index_in_bounds.2 pgA 8 [17, 34, 51] (by decide) (by decide)⟩

/-- C10 (amended): every program command issued by `write_page` has
`transaction_word_len` at least 1 (so the `NUM` subtraction cannot
underflow there), and the `PROG_EMPTY` refill computes a length of at
least 1 whenever fewer than `PAGE_SIZE` bytes have been pushed
(`write_index < PAGE_SIZE`, with `write_index` a multiple of four); in
that case the wrapping subtraction equals the exact one.  The guard is
necessary: a reachable state violates it — see the counterexample. -/
theorem C10_num_no_underflow :
    (∀ a : Nat, a < U32 →
      1 ≤ calculate_max_prog_len a (PAGE_SIZE % U32)) ∧
    (∀ a w : Nat, w % 4 = 0 → w < PAGE_SIZE →
      1 ≤ calculate_max_prog_len (a % U32) ((PAGE_SIZE - w) % U32)) ∧
    (∀ len : Nat, 1 ≤ len → len ≤ U32 → sub32 len 1 = len - 1) := by
  refine ⟨fun a ha => ?_, fun a w hm hlt => ?_, fun len h1 h2 => ?_⟩
  · have h := calculate_max_prog_len_eq a (PAGE_SIZE % U32) ha
      (by norm_num [PAGE_SIZE, U32])
    rw [h]
    have : a % 16 < 16 := Nat.mod_lt _ (by norm_num)
    simp only [PAGE_SIZE, U32] at *
    omega
  · have haU : a % U32 < U32 := Nat.mod_lt _ (by norm_num [U32])
    have h := calculate_max_prog_len_eq (a % U32) ((PAGE_SIZE - w) % U32) haU
      (by
        apply Nat.mod_lt
        norm_num [U32])
    rw [h]
    have h16 : a % U32 % 16 < 16 := Nat.mod_lt _ (by norm_num)
    simp only [PAGE_SIZE, U32] at *
    omega
  · simp only [sub32, U32] at *
    omega

/-- Witness for C10 at `a = 0`, `w = 2044`, `len = 16`. -/
theorem C10_num_no_underflow_witness :
    1 ≤ calculate_max_prog_len 0 (PAGE_SIZE % U32) ∧
    1 ≤ calculate_max_prog_len (0 % U32) ((PAGE_SIZE - 2044) % U32) ∧
    sub32 16 1 = 16 - 1 :=
  ⟨C10_num_no_underflow.1 0 (by norm_num [U32]),
   C10_num_no_underflow.2.1 0 2044 (by norm_num) (by norm_num [PAGE_SIZE]),
   C10_num_no_underflow.2.2 16 (by norm_num) (by norm_num [U32])⟩

set_option maxRecDepth 100000 in
/-- C10 counterexample: after a full-page write whose refills all complete
but whose `OP_DONE` has not yet been serviced, the driver is reachable in
a state holding the write buffer with `write_index = PAGE_SIZE`; a further
`PROG_EMPTY` interrupt then computes `transaction_word_len = 0` and the
`u32` subtraction wraps, writing `NUM = 4095` to the control register —
the claimed "`write_index < PAGE_SIZE` in every reachable `PROG_EMPTY`
run with a held buffer" is false. -/
theorem C10_counterexample :
    (runTraceS (initSt 1) wholePageWriteTrace).writeBuf.isSome = true ∧
    (runTraceS (initSt 1) wholePageWriteTrace).writeIndex = PAGE_SIZE ∧
    calculate_max_prog_len
        ((runTraceS (initSt 1) wholePageWriteTrace).writeWordAddr % U32)
        ((PAGE_SIZE -
          (runTraceS (initSt 1) wholePageWriteTrace).writeIndex) % U32) = 0 ∧
    controlNums
        (handle_interrupt (runTraceS (initSt 1) wholePageWriteTrace)
          irqPE hwOk).2 = [4095, 4095] :=
  ⟨rfl, rfl, rfl, rfl⟩

theorem dataCfgWrites_fillLoop (pf : Nat → Bool) (buf : Page) :
    ∀ (l : List Nat) (ww widx : Nat),
      dataCfgWrites (fillLoop pf buf l ww widx).events = 0 := by
  intro l
  induction l with
  | nil => intro ww widx; rfl
  | cons i rest ih =>
    intro ww widx
    simp only [fillLoop]
    split
    · rfl
    · simp [dataCfgWrites, ih]

theorem infoCfgWrites_fillLoop (pf : Nat → Bool) (buf : Page) :
    ∀ (l : List Nat) (ww widx : Nat),
      infoCfgWrites (fillLoop pf buf l ww widx).events = 0 := by
  intro l
  induction l with
  | nil => intro ww widx; rfl
  | cons i rest ih =>
    intro ww widx
    simp only [fillLoop]
    split
    · rfl
    · simp [infoCfgWrites, ih]

theorem opErrorStep_cfg (s : St) (f : Bool) :
    (opErrorStep s f).1.dataConfigured = s.dataConfigured ∧
    (opErrorStep s f).1.infoConfigured = s.infoConfigured ∧
    dataCfgWrites (opErrorStep s f).2 = 0 ∧
    infoCfgWrites (opErrorStep s f).2 = 0 := by
  cases f <;> cases hr : s.readBuf <;> cases hw : s.writeBuf <;>
    simp [opErrorStep, hr, hw, dataCfgWrites, infoCfgWrites]

theorem rdLvlStep_cfg (s : St) (f : Bool) (fifo : List Nat) :
    (rdLvlStep s f fifo).1.dataConfigured = s.dataConfigured ∧
    (rdLvlStep s f fifo).1.infoConfigured = s.infoConfigured ∧
    dataCfgWrites (rdLvlStep s f fifo).2 = 0 ∧
    infoCfgWrites (rdLvlStep s f fifo).2 = 0 := by
  cases f <;> cases hr : s.readBuf <;>
    simp [rdLvlStep, hr, enable_interrupts, dataCfgWrites, infoCfgWrites]

theorem progEmptyStep_cfg (s : St) (f : Bool) (pf : Nat → Bool) :
    (progEmptyStep s f pf).1.dataConfigured = s.dataConfigured ∧
    (progEmptyStep s f pf).1.infoConfigured = s.infoConfigured ∧
    dataCfgWrites (progEmptyStep s f pf).2 = 0 ∧
    infoCfgWrites (progEmptyStep s f pf).2 = 0 := by
  cases f <;> cases hw : s.writeBuf <;>
    simp [progEmptyStep, hw, enable_interrupts, dataCfgWrites, infoCfgWrites,
      dataCfgWrites_append, infoCfgWrites_append, dataCfgWrites_fillLoop,
      infoCfgWrites_fillLoop]

theorem opDoneStep_cfg (s : St) (f : Bool) :
    (opDoneStep s f).1.dataConfigured = s.dataConfigured ∧
    (opDoneStep s f).1.infoConfigured = s.infoConfigured ∧
    dataCfgWrites (opDoneStep s f).2 = 0 ∧
    infoCfgWrites (opDoneStep s f).2 = 0 := by
  cases f
  · simp [opDoneStep, dataCfgWrites, infoCfgWrites]
  · cases hr : s.readBuf <;> cases hw : s.writeBuf <;>
      by_cases h0 : getField s.regs.control 4 2 = 0 <;>
      by_cases h1 : getField s.regs.control 4 2 = 1 <;>
      by_cases h2 : getField s.regs.control 4 2 = 2 <;>
      by_cases hri : PAGE_SIZE ≤ s.readIndex <;>
      by_cases hwi : PAGE_SIZE ≤ s.writeIndex <;>
      simp [opDoneStep, hr, hw, h0, h1, h2, hri, hwi, enable_interrupts,
        dataCfgWrites, infoCfgWrites]

theorem handle_interrupt_cfg (s : St) (irqs : Irqs) (hw : HwIn) :
    (handle_interrupt s irqs hw).1.dataConfigured = s.dataConfigured ∧
    (handle_interrupt s irqs hw).1.infoConfigured = s.infoConfigured ∧
    dataCfgWrites (handle_interrupt s irqs hw).2 = 0 ∧
    infoCfgWrites (handle_interrupt s irqs hw).2 = 0 := by
  simp only [handle_interrupt, dataCfgWrites_append, infoCfgWrites_append]
  have h0d : (disable_interrupts s).1.dataConfigured = s.dataConfigured := rfl
  have h0i : (disable_interrupts s).1.infoConfigured = s.infoConfigured := rfl
  have h1 := opErrorStep_cfg (disable_interrupts s).1 irqs.opError
  have h2 := rdLvlStep_cfg (opErrorStep (disable_interrupts s).1 irqs.opError).1
    irqs.rdLvl hw.rdFifo
  have h3 := progEmptyStep_cfg
    (rdLvlStep (opErrorStep (disable_interrupts s).1 irqs.opError).1
      irqs.rdLvl hw.rdFifo).1 irqs.progEmpty hw.progFull
  have h4 := opDoneStep_cfg
    (progEmptyStep
      (rdLvlStep (opErrorStep (disable_interrupts s).1 irqs.opError).1
        irqs.rdLvl hw.rdFifo).1 irqs.progEmpty hw.progFull).1 irqs.opDone
  have hd0 : dataCfgWrites (disable_interrupts s).2 = 0 := rfl
  have hi0 : infoCfgWrites (disable_interrupts s).2 = 0 := rfl
  refine ⟨?_, ?_, ?_, ?_⟩
  · rw [h4.1, h3.1, h2.1, h1.1, h0d]
  · rw [h4.2.1, h3.2.1, h2.2.1, h1.2.1, h0i]
  · simp [hd0, h1.2.2.1, h2.2.2.1, h3.2.2.1, h4.2.2.1]
  · simp [hi0, h1.2.2.2, h2.2.2.2, h3.2.2.2, h4.2.2.2]

theorem read_page_flags (s : St) (p : Nat) (b : Page) (hw : HwIn) :
    (read_page s p b hw).1.dataConfigured = true ∧
    (read_page s p b hw).1.infoConfigured = true := by
  cases hd : s.dataConfigured <;> cases hi : s.infoConfigured <;>
    cases hc : hw.ctrlRegwen <;>
    simp [read_page, configure_data_partition, configure_info_partition,
      enable_interrupts, hd, hi, hc]

theorem write_page_flags (s : St) (p : Nat) (b : Page) (hw : HwIn) :
    (write_page s p b hw).1.dataConfigured = true ∧
    (write_page s p b hw).1.infoConfigured = true := by
  cases hd : s.dataConfigured <;> cases hi : s.infoConfigured <;>
    cases hc : hw.ctrlRegwen <;>
    simp [write_page, configure_data_partition, configure_info_partition,
      enable_interrupts, hd, hi, hc]

theorem erase_page_flags (s : St) (p : Nat) (hw : HwIn) :
    (erase_page s p hw).1.dataConfigured = true ∧
    (erase_page s p hw).1.infoConfigured = true := by
  cases hd : s.dataConfigured <;> cases hi : s.infoConfigured <;>
    simp [erase_page, configure_data_partition, configure_info_partition,
      enable_interrupts, hd, hi]

theorem runOp_data_cfg (s : St) (c : OpCall) :
    ((runS s c).dataConfigured = s.dataConfigured ∧
      dataCfgWrites (runOp s c).2 = 0) ∨
    ((runS s c).dataConfigured = true ∧
      dataCfgWrites (runOp s c).2 = if s.dataConfigured then 0 else 1) := by
  cases c with
  | readP p b hw =>
    right
    cases hd : s.dataConfigured <;> cases hi : s.infoConfigured <;>
      cases hc : hw.ctrlRegwen <;>
      simp [runS, runOp, read_page, configure_data_partition,
        configure_info_partition, enable_interrupts, hd, hi, hc,
        dataCfgWrites, dataCfgWrites_append]
  | writeP p b hw =>
    right
    cases hd : s.dataConfigured <;> cases hi : s.infoConfigured <;>
      cases hc : hw.ctrlRegwen <;>
      simp [runS, runOp, write_page, configure_data_partition,
        configure_info_partition, enable_interrupts, hd, hi, hc,
        dataCfgWrites, dataCfgWrites_append, dataCfgWrites_fillLoop]
  | eraseP p hw =>
    right
    cases hd : s.dataConfigured <;> cases hi : s.infoConfigured <;>
      simp [runS, runOp, erase_page, configure_data_partition,
        configure_info_partition, enable_interrupts, hd, hi,
        dataCfgWrites, dataCfgWrites_append]
  | irq irqs hw =>
    left
    have := handle_interrupt_cfg s irqs hw
    exact ⟨this.1, this.2.2.1⟩

theorem runOp_info_cfg (s : St) (c : OpCall) :
    ((runS s c).infoConfigured = s.infoConfigured ∧
      infoCfgWrites (runOp s c).2 = 0) ∨
    ((runS s c).infoConfigured = true ∧
      infoCfgWrites (runOp s c).2 = if s.infoConfigured then 0 else 2) := by
  cases c with
  | readP p b hw =>
    right
    cases hd : s.dataConfigured <;> cases hi : s.infoConfigured <;>
      cases hc : hw.ctrlRegwen <;>
      simp [runS, runOp, read_page, configure_data_partition,
        configure_info_partition, enable_interrupts, hd, hi, hc,
        infoCfgWrites, infoCfgWrites_append]
  | writeP p b hw =>
    right
    cases hd : s.dataConfigured <;> cases hi : s.infoConfigured <;>
      cases hc : hw.ctrlRegwen <;>
      simp [runS, runOp, write_page, configure_data_partition,
        configure_info_partition, enable_interrupts, hd, hi, hc,
        infoCfgWrites, infoCfgWrites_append, infoCfgWrites_fillLoop]
  | eraseP p hw =>
    right
    cases hd : s.dataConfigured <;> cases hi : s.infoConfigured <;>
      simp [runS, runOp, erase_page, configure_data_partition,
        configure_info_partition, enable_interrupts, hd, hi,
        infoCfgWrites, infoCfgWrites_append]
  | irq irqs hw =>
    left
    have := handle_interrupt_cfg s irqs hw
    exact ⟨this.2.1, this.2.2.2⟩

theorem trace_dataCfgWrites :
    ∀ (cs : List OpCall) (s : St),
      dataCfgWrites (runTrace s cs).2 ≤ if s.dataConfigured then 0 else 1 := by
  intro cs
  induction cs with
  | nil =>
    intro s
    simp [runTrace, dataCfgWrites]
  | cons c cs ih =>
    intro s
    simp only [runTrace, dataCfgWrites_append]
    have hrec := ih (runS s c)
    rcases runOp_data_cfg s c with ⟨hf, h0⟩ | ⟨hf, hval⟩
    · rw [show (runOp s c).1 = runS s c from rfl] at *
      rw [hf] at hrec
      cases hd : s.dataConfigured <;> simp_all
    · rw [show (runOp s c).1 = runS s c from rfl] at *
      rw [hf] at hrec
      cases hd : s.dataConfigured <;> simp_all <;> omega

theorem trace_infoCfgWrites :
    ∀ (cs : List OpCall) (s : St),
      infoCfgWrites (runTrace s cs).2 ≤ if s.infoConfigured then 0 else 2 := by
  intro cs
  induction cs with
  | nil =>
    intro s
    simp [runTrace, infoCfgWrites]
  | cons c cs ih =>
    intro s
    simp only [runTrace, infoCfgWrites_append]
    have hrec := ih (runS s c)
    rcases runOp_info_cfg s c with ⟨hf, h0⟩ | ⟨hf, hval⟩
    · rw [show (runOp s c).1 = runS s c from rfl] at *
      rw [hf] at hrec
      cases hd : s.infoConfigured <;> simp_all
    · rw [show (runOp s c).1 = runS s c from rfl] at *
      rw [hf] at hrec
      cases hd : s.infoConfigured <;> simp_all <;> omega

/-- C8: the partition-configuration flags are monotonic within a boot
cycle — initially false, set to true by any `read_page` / `write_page` /
`erase_page`, never cleared by any driver operation — and consequently the
default-region register is written at most once and the info-page
permission registers at most twice (one `configure_info_partition` run)
along any trace from boot, with no separate initialization call needed. -/
theorem C8_config_flags_monotone :
    (∀ (s : St) (c : OpCall),
      s.dataConfigured = true → (runS s c).dataConfigured = true) ∧
    (∀ (s : St) (c : OpCall),
      s.infoConfigured = true → (runS s c).infoConfigured = true) ∧
    (∀ (s : St) (p : Nat) (b : Page) (hw : HwIn),
      (runS s (.readP p b hw)).dataConfigured = true ∧
      (runS s (.readP p b hw)).infoConfigured = true ∧
      (runS s (.writeP p b hw)).dataConfigured = true ∧
      (runS s (.writeP p b hw)).infoConfigured = true ∧
      (runS s (.eraseP p hw)).dataConfigured = true ∧
      (runS s (.eraseP p hw)).infoConfigured = true) ∧
    (∀ rn : Nat,
      (initSt rn).dataConfigured = false ∧ (initSt rn).infoConfigured = false) ∧
    (∀ (rn : Nat) (cs : List OpCall),
      dataCfgWrites (runTrace (initSt rn) cs).2 ≤ 1 ∧
      infoCfgWrites (runTrace (initSt rn) cs).2 ≤ 2) := by
  have hdata : ∀ (s : St) (c : OpCall),
      s.dataConfigured = true → (runS s c).dataConfigured = true := by
    intro s c h
    rcases runOp_data_cfg s c with ⟨hf, _⟩ | ⟨hf, _⟩
    · rw [hf, h]
    · exact hf
  have hinfo : ∀ (s : St) (c : OpCall),
      s.infoConfigured = true → (runS s c).infoConfigured = true := by
    intro s c h
    rcases runOp_info_cfg s c with ⟨hf, _⟩ | ⟨hf, _⟩
    · rw [hf, h]
    · exact hf
  refine ⟨hdata, hinfo, ?_, fun rn => ⟨rfl, rfl⟩, fun rn cs => ?_⟩
  · intro s p b hw
    exact ⟨(read_page_flags s p b hw).1, (read_page_flags s p b hw).2,
      (write_page_flags s p b hw).1, (write_page_flags s p b hw).2,
      (erase_page_flags s p hw).1, (erase_page_flags s p hw).2⟩
  · constructor
    · calc dataCfgWrites (runTrace (initSt rn) cs).2
          ≤ if (initSt rn).dataConfigured then 0 else 1 :=
            trace_dataCfgWrites cs (initSt rn)
        _ ≤ 1 := by split <;> omega
    · calc infoCfgWrites (runTrace (initSt rn) cs).2
          ≤ if (initSt rn).infoConfigured then 0 else 2 :=
            trace_infoCfgWrites cs (initSt rn)
        _ ≤ 2 := by split <;> omega

/-- Witness for C8: monotonicity applied at a configured state, and the
trace bound at a concrete two-operation trace. -/
theorem C8_config_flags_monotone_witness :
    (runS (runS (initSt 1) (.eraseP 5 hwOk)) (.irq irqPE hwOk)).dataConfigured
      = true ∧
    (runS (runS (initSt 1) (.eraseP 5 hwOk)) (.irq irqPE hwOk)).infoConfigured
      = true ∧
    dataCfgWrites
        (runTrace (initSt 1) [OpCall.eraseP 5 hwOk, OpCall.readP 5 pgA hwOk]).2
      ≤ 1 ∧
    infoCfgWrites
        (runTrace (initSt 1) [OpCall.eraseP 5 hwOk, OpCall.readP 5 pgA hwOk]).2
      ≤ 2 :=
  ⟨C8_config_flags_monotone.1 (runS (initSt 1) (.eraseP 5 hwOk))
      (.irq irqPE hwOk) (by decide),
   C8_config_flags_monotone.2.1 (runS (initSt 1) (.eraseP 5 hwOk))
      (.irq irqPE hwOk) (by decide),
   (C8_config_flags_monotone.2.2.2.2 1
      [OpCall.eraseP 5 hwOk, OpCall.readP 5 pgA hwOk]).1,
   (C8_config_flags_monotone.2.2.2.2 1
      [OpCall.eraseP 5 hwOk, OpCall.readP 5 pgA hwOk]).2⟩

theorem readCons_keep {s s2 : St} {evs : List Event}
    (h : s2.readBuf = s.readBuf) (he : readCbs evs = []) :
    ReadCons s s2 evs := by
  constructor
  · intro h0
    exact ⟨by rw [h, h0], he⟩
  · intro b hb
    left
    exact ⟨⟨b, by rw [h, hb], rfl⟩, he⟩

theorem readCons_take {s s2 : St} {evs : List Event} (b0 : Page) (e0 : Ferr)
    (h : s.readBuf = some b0) (h2 : s2.readBuf = none)
    (he : readCbs evs = [(b0.pid, e0)]) : ReadCons s s2 evs := by
  constructor
  · intro h0
    rw [h0] at h
    cases h
  · intro b hb
    rw [h] at hb
    injection hb with hb
    subst hb
    right
    exact ⟨h2, e0, he⟩

theorem readCons_comp {s s1 s2 : St} {e1 e2 : List Event}
    (h1 : ReadCons s s1 e1) (h2 : ReadCons s1 s2 e2) :
    ReadCons s s2 (e1 ++ e2) := by
  obtain ⟨hn1, hs1⟩ := h1
  obtain ⟨hn2, hs2⟩ := h2
  constructor
  · intro h
    obtain ⟨ha, hb⟩ := hn1 h
    obtain ⟨hc, hd⟩ := hn2 ha
    exact ⟨hc, by simp [readCbs_append, hb, hd]⟩
  · intro b hb
    rcases hs1 b hb with ⟨⟨b1, hb1, hp1⟩, he1⟩ | ⟨hnone, e, he1⟩
    · rcases hs2 b1 hb1 with ⟨⟨b2, hb2, hp2⟩, he2⟩ | ⟨hnone2, e2, he2⟩
      · left
        exact ⟨⟨b2, hb2, by rw [hp2, hp1]⟩,
          by simp [readCbs_append, he1, he2]⟩
      · right
        exact ⟨hnone2, e2, by simp [readCbs_append, he1, he2, hp1]⟩
    · obtain ⟨ha, hbb⟩ := hn2 hnone
      right
      exact ⟨ha, e, by simp [readCbs_append, he1, hbb]⟩

theorem readCons_congr {s s2 : St} {evs evs2 : List Event}
    (h : ReadCons s s2 evs) (he : evs = evs2) : ReadCons s s2 evs2 :=
  he ▸ h

theorem writeCons_keep {s s2 : St} {evs : List Event}
    (h : s2.writeBuf = s.writeBuf) (he : writeCbs evs = []) :
    WriteCons s s2 evs := by
  constructor
  · intro h0
    exact ⟨by rw [h, h0], he⟩
  · intro b hb
    left
    exact ⟨⟨b, by rw [h, hb], rfl⟩, he⟩

theorem writeCons_take {s s2 : St} {evs : List Event} (b0 : Page) (e0 : Ferr)
    (h : s.writeBuf = some b0) (h2 : s2.writeBuf = none)
    (he : writeCbs evs = [(b0.pid, e0)]) : WriteCons s s2 evs := by
  constructor
  · intro h0
    rw [h0] at h
    cases h
  · intro b hb
    rw [h] at hb
    injection hb with hb
    subst hb
    right
    exact ⟨h2, e0, he⟩

theorem writeCons_comp {s s1 s2 : St} {e1 e2 : List Event}
    (h1 : WriteCons s s1 e1) (h2 : WriteCons s1 s2 e2) :
    WriteCons s s2 (e1 ++ e2) := by
  obtain ⟨hn1, hs1⟩ := h1
  obtain ⟨hn2, hs2⟩ := h2
  constructor
  · intro h
    obtain ⟨ha, hb⟩ := hn1 h
    obtain ⟨hc, hd⟩ := hn2 ha
    exact ⟨hc, by simp [writeCbs_append, hb, hd]⟩
  · intro b hb
    rcases hs1 b hb with ⟨⟨b1, hb1, hp1⟩, he1⟩ | ⟨hnone, e, he1⟩
    · rcases hs2 b1 hb1 with ⟨⟨b2, hb2, hp2⟩, he2⟩ | ⟨hnone2, e2, he2⟩
      · left
        exact ⟨⟨b2, hb2, by rw [hp2, hp1]⟩,
          by simp [writeCbs_append, he1, he2]⟩
      · right
        exact ⟨hnone2, e2, by simp [writeCbs_append, he1, he2, hp1]⟩
    · obtain ⟨ha, hbb⟩ := hn2 hnone
      right
      exact ⟨ha, e, by simp [writeCbs_append, he1, hbb]⟩

theorem writeCons_congr {s s2 : St} {evs evs2 : List Event}
    (h : WriteCons s s2 evs) (he : evs = evs2) : WriteCons s s2 evs2 :=
  he ▸ h

theorem drainLoop_pid (fifo : List Nat) :
    ∀ (buf : Page) (idx : Nat), (drainLoop buf idx fifo).buf.pid = buf.pid := by
  induction fifo with
  | nil => intro buf idx; rfl
  | cons d rest ih =>
    intro buf idx
    simp only [drainLoop]
    split
    · exact (ih _ _).trans rfl
    · rfl

theorem readCbs_fillLoop (pf : Nat → Bool) (buf : Page) :
    ∀ (l : List Nat) (ww widx : Nat),
      readCbs (fillLoop pf buf l ww widx).events = [] := by
  intro l
  induction l with
  | nil => intro ww widx; rfl
  | cons i rest ih =>
    intro ww widx
    simp only [fillLoop]
    split
    · rfl
    · simp [readCbs, ih]

theorem writeCbs_fillLoop (pf : Nat → Bool) (buf : Page) :
    ∀ (l : List Nat) (ww widx : Nat),
      writeCbs (fillLoop pf buf l ww widx).events = [] := by
  intro l
  induction l with
  | nil => intro ww widx; rfl
  | cons i rest ih =>
    intro ww widx
    simp only [fillLoop]
    split
    · rfl
    · simp [writeCbs, ih]

theorem disable_readCons (s : St) :
    ReadCons s (disable_interrupts s).1 (disable_interrupts s).2 :=
  readCons_keep rfl rfl

theorem disable_writeCons (s : St) :
    WriteCons s (disable_interrupts s).1 (disable_interrupts s).2 :=
  writeCons_keep rfl rfl

theorem opErrorStep_readCons (s : St) (f : Bool) :
    ReadCons s (opErrorStep s f).1 (opErrorStep s f).2 := by
  cases f
  · exact readCons_keep rfl rfl
  · cases hr : s.readBuf with
    | none =>
      refine readCons_keep ?_ ?_ <;>
        cases hw : s.writeBuf <;> simp [opErrorStep, hr, hw, readCbs]
    | some b0 =>
      refine readCons_take b0 .flashError hr ?_ ?_ <;>
        cases hw : s.writeBuf <;> simp [opErrorStep, hr, hw, readCbs]

theorem opErrorStep_writeCons (s : St) (f : Bool) :
    WriteCons s (opErrorStep s f).1 (opErrorStep s f).2 := by
  cases f
  · exact writeCons_keep rfl rfl
  · cases hb : s.writeBuf with
    | none =>
      refine writeCons_keep ?_ ?_ <;>
        cases hr : s.readBuf <;> simp [opErrorStep, hr, hb, writeCbs]
    | some b0 =>
      refine writeCons_take b0 .flashError hb ?_ ?_ <;>
        cases hr : s.readBuf <;> simp [opErrorStep, hr, hb, writeCbs]

theorem rdLvlStep_readCons (s : St) (f : Bool) (fifo : List Nat) :
    ReadCons s (rdLvlStep s f fifo).1 (rdLvlStep s f fifo).2 := by
  cases f
  · exact readCons_keep rfl rfl
  · cases hr : s.readBuf with
    | none => refine readCons_keep ?_ ?_ <;> simp [rdLvlStep, hr, readCbs]
    | some b0 =>
      constructor
      · intro h0
        rw [h0] at hr
        cases hr
      · intro b hb
        rw [hr] at hb
        injection hb with hb
        subst hb
        left
        refine ⟨⟨(drainLoop b0 s.readIndex fifo).buf, ?_,
          drainLoop_pid fifo b0 s.readIndex⟩, ?_⟩
        · simp [rdLvlStep, hr, enable_interrupts]
        · simp [rdLvlStep, hr, enable_interrupts, readCbs]

theorem rdLvlStep_writeCons (s : St) (f : Bool) (fifo : List Nat) :
    WriteCons s (rdLvlStep s f fifo).1 (rdLvlStep s f fifo).2 := by
  cases f
  · exact writeCons_keep rfl rfl
  · cases hr : s.readBuf <;>
      (refine writeCons_keep ?_ ?_ <;>
        simp [rdLvlStep, hr, enable_interrupts, writeCbs])

theorem progEmptyStep_readCons (s : St) (f : Bool) (pf : Nat → Bool) :
    ReadCons s (progEmptyStep s f pf).1 (progEmptyStep s f pf).2 := by
  cases f
  · exact readCons_keep rfl rfl
  · cases hb : s.writeBuf <;>
      (refine readCons_keep ?_ ?_ <;>
        simp [progEmptyStep, hb, enable_interrupts, readCbs, readCbs_append,
          readCbs_fillLoop])

theorem progEmptyStep_writeCons (s : St) (f : Bool) (pf : Nat → Bool) :
    WriteCons s (progEmptyStep s f pf).1 (progEmptyStep s f pf).2 := by
  cases f
  · exact writeCons_keep rfl rfl
  · cases hb : s.writeBuf with
    | none => refine writeCons_keep ?_ ?_ <;> simp [progEmptyStep, hb, writeCbs]
    | some b0 =>
      refine writeCons_keep ?_ ?_ <;>
        simp [progEmptyStep, hb, enable_interrupts, writeCbs, writeCbs_append,
          writeCbs_fillLoop]

theorem opDoneStep_readCons (s : St) (f : Bool) :
    ReadCons s (opDoneStep s f).1 (opDoneStep s f).2 := by
  cases f
  · exact readCons_keep rfl rfl
  · by_cases h0 : getField s.regs.control 4 2 = 0
    · cases hr : s.readBuf with
      | none =>
        refine readCons_keep ?_ ?_ <;> simp [opDoneStep, h0, hr, readCbs]
      | some b0 =>
        by_cases hri : PAGE_SIZE ≤ s.readIndex
        · refine readCons_take b0 .commandComplete hr ?_ ?_ <;>
            simp [opDoneStep, h0, hr, hri, readCbs]
        · refine readCons_keep ?_ ?_ <;>
            simp [opDoneStep, h0, hr, hri, enable_interrupts, readCbs]
    · by_cases h1 : getField s.regs.control 4 2 = 1
      · cases hb : s.writeBuf with
        | none =>
          refine readCons_keep ?_ ?_ <;>
            simp [opDoneStep, h0, h1, hb, readCbs]
        | some b0 =>
          by_cases hwi : PAGE_SIZE ≤ s.writeIndex
          · refine readCons_keep ?_ ?_ <;>
              simp [opDoneStep, h0, h1, hb, hwi, readCbs]
          · refine readCons_keep ?_ ?_ <;>
              simp [opDoneStep, h0, h1, hb, hwi, enable_interrupts, readCbs]
      · by_cases h2 : getField s.regs.control 4 2 = 2
        · refine readCons_keep ?_ ?_ <;>
            simp [opDoneStep, h0, h1, h2, readCbs]
        · refine readCons_keep ?_ ?_ <;>
            simp [opDoneStep, h0, h1, h2, readCbs]

theorem opDoneStep_writeCons (s : St) (f : Bool) :
    WriteCons s (opDoneStep s f).1 (opDoneStep s f).2 := by
  cases f
  · exact writeCons_keep rfl rfl
  · by_cases h0 : getField s.regs.control 4 2 = 0
    · cases hr : s.readBuf with
      | none =>
        refine writeCons_keep ?_ ?_ <;> simp [opDoneStep, h0, hr, writeCbs]
      | some b0 =>
        by_cases hri : PAGE_SIZE ≤ s.readIndex
        · refine writeCons_keep ?_ ?_ <;>
            simp [opDoneStep, h0, hr, hri, writeCbs]
        · refine writeCons_keep ?_ ?_ <;>
            simp [opDoneStep, h0, hr, hri, enable_interrupts, writeCbs]
    · by_cases h1 : getField s.regs.control 4 2 = 1
      · cases hb : s.writeBuf with
        | none =>
          refine writeCons_keep ?_ ?_ <;>
            simp [opDoneStep, h0, h1, hb, writeCbs]
        | some b0 =>
          by_cases hwi : PAGE_SIZE ≤ s.writeIndex
          · refine writeCons_take b0 .commandComplete hb ?_ ?_ <;>
              simp [opDoneStep, h0, h1, hb, hwi, writeCbs]
          · refine writeCons_keep ?_ ?_ <;>
              simp [opDoneStep, h0, h1, hb, hwi, enable_interrupts, writeCbs]
      · by_cases h2 : getField s.regs.control 4 2 = 2
        · refine writeCons_keep ?_ ?_ <;>
            simp [opDoneStep, h0, h1, h2, writeCbs]
        · refine writeCons_keep ?_ ?_ <;>
            simp [opDoneStep, h0, h1, h2, writeCbs]

theorem handle_interrupt_readCons (s : St) (irqs : Irqs) (hw : HwIn) :
    ReadCons s (handle_interrupt s irqs hw).1 (handle_interrupt s irqs hw).2 := by
  simp only [handle_interrupt]
  refine readCons_congr
    (readCons_comp
      (readCons_comp
        (readCons_comp
          (readCons_comp (disable_readCons s) (opErrorStep_readCons _ _))
          (rdLvlStep_readCons _ _ _))
        (progEmptyStep_readCons _ _ _))
      (opDoneStep_readCons _ _)) ?_
  simp [List.append_assoc]

theorem handle_interrupt_writeCons (s : St) (irqs : Irqs) (hw : HwIn) :
    WriteCons s (handle_interrupt s irqs hw).1 (handle_interrupt s irqs hw).2 := by
  simp only [handle_interrupt]
  refine writeCons_congr
    (writeCons_comp
      (writeCons_comp
        (writeCons_comp
          (writeCons_comp (disable_writeCons s) (opErrorStep_writeCons _ _))
          (rdLvlStep_writeCons _ _ _))
        (progEmptyStep_writeCons _ _ _))
      (opDoneStep_writeCons _ _)) ?_
  simp [List.append_assoc]

theorem runIrqs_readCons :
    ∀ (tr : List (Irqs × HwIn)) (s : St),
      ReadCons s (runIrqs s tr).1 (runIrqs s tr).2 := by
  intro tr
  induction tr with
  | nil => intro s; exact readCons_keep rfl rfl
  | cons p rest ih =>
    intro s
    simp only [runIrqs]
    exact readCons_comp (handle_interrupt_readCons s p.1 p.2) (ih _)

theorem runIrqs_writeCons :
    ∀ (tr : List (Irqs × HwIn)) (s : St),
      WriteCons s (runIrqs s tr).1 (runIrqs s tr).2 := by
  intro tr
  induction tr with
  | nil => intro s; exact writeCons_keep rfl rfl
  | cons p rest ih =>
    intro s
    simp only [runIrqs]
    exact writeCons_comp (handle_interrupt_writeCons s p.1 p.2) (ih _)

/-- C1 (amended): across every `handle_interrupt` invocation and every
sequence of them, a held read (resp. write) buffer is conserved: it is
either still held — same allocation, no completion emitted — or released
together with exactly one `read_complete` (resp. `write_complete`)
carrying that buffer; with no buffer held, no such callback can be
emitted.  Hence an accepted read or write gets its matching callback and
its buffer back exactly once, at the terminal interrupt of the operation.
(For erase the guarantee does not hold as claimed — see the
counterexample.) -/
theorem C1_buffer_callback_exactly_once :
    (∀ (s : St) (irqs : Irqs) (hw : HwIn),
      ReadCons s (handle_interrupt s irqs hw).1 (handle_interrupt s irqs hw).2 ∧
      WriteCons s (handle_interrupt s irqs hw).1
        (handle_interrupt s irqs hw).2) ∧
    (∀ (s : St) (tr : List (Irqs × HwIn)),
      ReadCons s (runIrqs s tr).1 (runIrqs s tr).2 ∧
      WriteCons s (runIrqs s tr).1 (runIrqs s tr).2) :=
  ⟨fun s irqs hw =>
    ⟨handle_interrupt_readCons s irqs hw, handle_interrupt_writeCons s irqs hw⟩,
   fun s tr => ⟨runIrqs_readCons tr s, runIrqs_writeCons tr s⟩⟩

/-- Witness for C1: a read in flight holding `pgA`, hit by `OP_ERROR`,
either keeps the buffer with no callback or releases it with exactly one
`read_complete` for `pgA`. -/
theorem C1_buffer_callback_exactly_once_witness :
    ((∃ b2, (handle_interrupt (runS (initSt 1) (.readP 5 pgA hwOk))
        irqErr hwOk).1.readBuf = some b2 ∧ b2.pid = pgA.pid) ∧
      readCbs (handle_interrupt (runS (initSt 1) (.readP 5 pgA hwOk))
        irqErr hwOk).2 = []) ∨
    ((handle_interrupt (runS (initSt 1) (.readP 5 pgA hwOk))
        irqErr hwOk).1.readBuf = none ∧
      ∃ e, readCbs (handle_interrupt (runS (initSt 1) (.readP 5 pgA hwOk))
        irqErr hwOk).2 = [(pgA.pid, e)]) :=
  ((C1_buffer_callback_exactly_once.1 (runS (initSt 1) (.readP 5 pgA hwOk))
    irqErr hwOk).1).2 pgA rfl

/-- C1 counterexample: an accepted erase (the control register records the
ERASE op) terminated by the error interrupt alone produces zero completion
callbacks — `erase_complete` is not invoked at all, so "the matching
completion callback fires exactly once for every terminal outcome" is
false for erase operations. -/
theorem C1_counterexample :
    (erase_page (initSt 1) 5 hwOk).2.2 = none ∧
    getField (runS (initSt 1) (.eraseP 5 hwOk)).regs.control 4 2 = 2 ∧
    numCallbacks
      (handle_interrupt (runS (initSt 1) (.eraseP 5 hwOk)) irqErr hwOk).2 = 0 :=
  ⟨rfl, rfl, rfl⟩

/-- Witness for C2: the universal no-`FlashMPError` fact instantiated at
the initial state under the error interrupt. -/
theorem C2_mp_fault_reported_as_flash_error_witness :
    Ferr.flashMPError ∉ cbErrs (handle_interrupt (initSt 1) irqErr hwOk).2 :=
  C2_mp_fault_reported_as_flash_error.2.2 (initSt 1) irqErr hwOk

end FlashCtrl
